import Mathlib

/-!
Verification of the connection-lifecycle controller of the `connback`
repository (`src/packages/core/src/connback.ts`, class `Connback<T>`).

The controller is embedded shallowly: the mutable instance fields become a
`State` record, each method becomes a pure function
`State T → State T × List (Action T)` that returns the updated state together
with the ordered list of observable actions (events emitted through the
emitters, and calls into the caller-supplied connector), and the points where
the original code suspends (the connect attempt, the backoff wait, the ping
timer) become explicit environment steps acting on the state.
-/

namespace Connback

/-- Configuration (`ConnbackConfig`): `keepalive` in seconds (0 disables) and
`connectTimeout` in milliseconds.  The backoff-policy parameters are consumed
by the external backoff scheduler and are modelled separately. -/
structure Config where
  keepalive : Nat
  connectTimeout : Nat
deriving DecidableEq

/-- Which call site created the pending connect attempt; it determines the
continuation that observes the attempt's rejection: the constructor attaches
`.catch(() => this.close())`, `reconnect()` attaches
`.catch(e => this.emitError(e))`, and a backoff attempt is observed by the
backoff scheduler's retry machinery. -/
inductive Origin where
  | ctor
  | manual
  | fromBackoff
deriving DecidableEq

/-- The mutable fields of a `Connback<T>` instance.  `connectRequest` and
`reconnectRequest` record presence of the cancelable connect promise and of
the pending backoff run; for the connect request we also record its origin
(in the code the origin lives in the caller's continuation). -/
structure State (T : Type) where
  client : Option T
  alive : Bool
  connectRequest : Option Origin
  reconnectRequest : Bool
  pingTimer : Bool
  deferredReconnect : Bool
  reconnecting : Bool
  ending : Bool
  ended : Bool
  connecting : Bool
  connected : Bool
deriving DecidableEq

/-- Observable actions: events emitted on the instance's emitters and the
calls made into the caller-supplied connector. -/
inductive Action (T : Type) where
  | emitError
  | emitConnect (client : Option T)
  | emitClose (hasError : Option Bool)
  | emitReconnect
  | emitOffline
  | emitEnd
  | connectorConnect
  | connectorClose (client : T) (force : Option Bool)
  | connectorPing (client : Option T)
  | cancelConnectReq
  | cancelBackoff
  | rearmPing
deriving DecidableEq

/-- Field values before the constructor body runs: TypeScript leaves the
declared booleans `undefined` (falsy) and `_connecting`/`_connected` are
initialised to `false`. -/
def initState (T : Type) : State T :=
  { client := none
    alive := false
    connectRequest := none
    reconnectRequest := false
    pingTimer := false
    deferredReconnect := false
    reconnecting := false
    ending := false
    ended := false
    connecting := false
    connected := false }

variable {T : Type}

/-- `Connback.cancelReconnect`: cancel and drop the pending backoff run if
one exists. -/
def cancelReconnect (s : State T) : State T × List (Action T) :=
  if s.reconnectRequest then ({ s with reconnectRequest := false }, [Action.cancelBackoff])
  else (s, [])

/-- `Connback.setupReconnect`: do nothing while ending or while a backoff run
is outstanding; otherwise emit `offline` on the transition into the
reconnecting state, and (unless ended) start the backoff run. -/
def setupReconnect (s : State T) : State T × List (Action T) :=
  if s.ending || s.reconnectRequest then (s, [])
  else
    let p :=
      if !s.reconnecting then ({ s with reconnecting := true }, [Action.emitOffline])
      else (s, ([] : List (Action T)))
    if p.1.ended then p
    else ({ p.1 with reconnectRequest := true }, p.2)

/-- `Connback.close` (the protected method): clear `connecting`, invoke the
connector's close operation when a client handle exists, and when not ending
reset the reconnect scheduling; finally clear the ping timer. -/
def close (force : Option Bool) (s : State T) : State T × List (Action T) :=
  let s1 : State T := { s with connecting := false }
  let closeActs : List (Action T) :=
    match s1.client with
    | some c => [Action.connectorClose c force]
    | none => []
  let p :=
    if !s1.ending then
      let q := cancelReconnect s1
      let r := setupReconnect q.1
      (r.1, q.2 ++ r.2)
    else (s1, ([] : List (Action T)))
  ({ p.1 with pingTimer := false }, closeActs ++ p.2)

/-- The body of `Connback.end` up to and including the `end` emission,
without the trailing deferred-reconnect call (which is handled by
`endConnback` below; at the one internal call site of `end`, inside
`doReconnect` reached from the `run` closure, the deferred slot has just been
cleared, so this function is the exact behaviour there). -/
def endCore (force : Option Bool) (s : State T) : State T × List (Action T) :=
  if s.ending then (s, [])
  else
    let p := cancelReconnect s
    let q := close force { p.1 with ending := true }
    ({ q.1 with ended := true }, p.2 ++ q.2 ++ [Action.emitEnd])

/-- `Connback.setupPingTimer`: arm the keepalive timer (and set the heartbeat
flag) if keepalive is enabled and no timer is armed yet. -/
def setupPingTimer (cfg : Config) (s : State T) : State T :=
  if !s.pingTimer && cfg.keepalive != 0 then { s with alive := true, pingTimer := true }
  else s

/-- `Connback.onConnected`: mark connected, clear `connecting` and
`reconnecting`, arm the ping timer, and emit `connect` with the current
client value. -/
def onConnected (cfg : Config) (s : State T) : State T × List (Action T) :=
  let s1 : State T := { s with connected := true, connecting := false, reconnecting := false }
  let s2 := setupPingTimer cfg s1
  (s2, [Action.emitConnect s2.client])

/-- The synchronous prefix of `Connback.doConnect`: a no-op while already
connecting, otherwise set `connecting` and invoke the connector's connect
operation, recording the pending cancelable request.  The rest of
`doConnect` runs after the `raceTimeout` suspension and is modelled by
`connectResolve` / `connectTimeout` / `connectReject`. -/
def doConnect (o : Origin) (s : State T) : State T × List (Action T) :=
  if s.connecting then (s, [])
  else ({ s with connecting := true, connectRequest := some o }, [Action.connectorConnect])

/-- `Connback.doReconnect` (synchronous prefix): emit `reconnect`, end first
when still connected, then start the connect attempt. -/
def doReconnect (o : Origin) (s : State T) : State T × List (Action T) :=
  let p := if s.connected then endCore none s else (s, ([] : List (Action T)))
  let q := doConnect o p.1
  (q.1, Action.emitReconnect :: (p.2 ++ q.2))

/-- The `run` closure inside `Connback.reconnect`: clear the ending/ended
flags and the deferred slot together, then perform `doReconnect`. -/
def run (o : Origin) (s : State T) : State T × List (Action T) :=
  doReconnect o { s with ending := false, ended := false, deferredReconnect := false }

/-- `Connback.reconnect`: while ending but not yet ended, store the request
in the deferred slot; otherwise execute it at once. -/
def reconnect (s : State T) : State T × List (Action T) :=
  if s.ending && !s.ended then ({ s with deferredReconnect := true }, [])
  else run Origin.manual s

/-- `Connback.end`: a no-op while already ending; otherwise cancel the
backoff run, close, reach the ended state, emit `end`, and finally execute a
stored deferred reconnect if present. -/
def endConnback (force : Option Bool) (s : State T) : State T × List (Action T) :=
  if s.ending then (s, [])
  else
    let p := endCore force s
    if p.1.deferredReconnect then
      let q := run Origin.manual p.1
      (q.1, p.2 ++ q.2)
    else p

/-- `Connback.onClose` (the internal listener registered on the close
emitter): clear `connecting`/`connected`, cancel a pending connect request,
clear the ping timer, and set up reconnect scheduling. -/
def onClose (s : State T) : State T × List (Action T) :=
  let s1 : State T := { s with connecting := false, connected := false }
  let p :=
    if s1.connectRequest.isSome then
      ({ s1 with connectRequest := none }, [Action.cancelConnectReq])
    else (s1, ([] : List (Action T)))
  let s2 : State T := { p.1 with pingTimer := false }
  let q := setupReconnect s2
  (q.1, p.2 ++ q.2)

/-- `Connback.feedClose`: emit on the close emitter; the internal `onClose`
listener (registered first, in the constructor) runs, then external
listeners observe the close event. -/
def feedClose (hasError : Option Bool) (s : State T) : State T × List (Action T) :=
  let p := onClose s
  (p.1, p.2 ++ [Action.emitClose hasError])

/-- `Connback.feedError`: emit `error`, then feed a close. -/
def feedError (s : State T) : State T × List (Action T) :=
  let p := feedClose none s
  (p.1, Action.emitError :: p.2)

/-- `Connback.feedHeartbeat`: set the heartbeat flag. -/
def feedHeartbeat (s : State T) : State T :=
  { s with alive := true }

/-- `Connback.reschedulePingTimer`: rearm the keepalive timer without
touching the heartbeat flag, when armed and keepalive enabled. -/
def reschedulePingTimer (cfg : Config) (s : State T) : State T × List (Action T) :=
  if s.pingTimer && cfg.keepalive != 0 then (s, [Action.rearmPing])
  else (s, [])

/-- `Connback.checkPing`: with the heartbeat flag set, clear it and invoke
the connector's ping; otherwise perform a forced close. -/
def checkPing (s : State T) : State T × List (Action T) :=
  if s.alive then ({ s with alive := false }, [Action.connectorPing s.client])
  else close (some true) s

/-- One firing of the keepalive timer: the retimer callback runs `checkPing`
and then reschedules the timer if it is still armed. -/
def pingTimerFire (s : State T) : State T × List (Action T) :=
  let p := checkPing s
  if p.1.pingTimer then (p.1, p.2 ++ [Action.rearmPing]) else p

/-- Resumption of `doConnect` when the pending connect attempt resolves with
a client before the timeout: store the client, drop the request, run
`onConnected`; a backoff-originated attempt additionally settles the backoff
run, whose `finally` clears `reconnectRequest`. -/
def connectResolve (cfg : Config) (c : T) (o : Origin) (s : State T) : State T × List (Action T) :=
  let p := onConnected cfg { s with client := some c, connectRequest := none }
  let s2 := if o = Origin.fromBackoff then { p.1 with reconnectRequest := false } else p.1
  (s2, p.2)

/-- Resumption of `doConnect` when the connect-timeout timer fires first.
The race primitive (`raceTimeout` of the external async library) resolves
with `undefined` after running the `onTimeout` callback, which cancels the
request and clears `connectRequest`; `doConnect` then resumes, assigns
`this.client = await this.connectRequest` — now awaiting `undefined` — and
falls through to `onConnected`.  A backoff-originated attempt thereby
settles the backoff run as a success, clearing `reconnectRequest`. -/
def connectTimeout (cfg : Config) (o : Origin) (s : State T) : State T × List (Action T) :=
  let p := onConnected cfg { s with client := none, connectRequest := none }
  let s2 := if o = Origin.fromBackoff then { p.1 with reconnectRequest := false } else p.1
  (s2, Action.cancelConnectReq :: p.2)

/-- Resumption when the pending connect attempt rejects before the timeout:
`await raceTimeout` rethrows, leaving `connectRequest` set (a settled stale
handle), and the origin's continuation runs: the constructor's `.catch` calls
`close()`; a manual reconnect's `.catch` emits `error`; for a backoff
attempt the scheduler invokes the retry option, which feeds the error, and
then either schedules the next delay or (when attempts are exhausted)
rejects the backoff run, whose `catch`/`finally` swallow the error and clear
`reconnectRequest`. -/
def connectReject (o : Origin) (exhausted : Bool) (s : State T) : State T × List (Action T) :=
  match o with
  | Origin.ctor => close none s
  | Origin.manual => (s, [Action.emitError])
  | Origin.fromBackoff =>
    let p := feedError s
    let s2 := if exhausted then { p.1 with reconnectRequest := false } else p.1
    (s2, p.2)

/-- One backoff delay elapsing: the backoff run invokes its attempt
function, `token => this.doReconnect(token)`. -/
def backoffAttempt (s : State T) : State T × List (Action T) :=
  doReconnect Origin.fromBackoff s

/-- The inputs `feedClose`/`feedError` that an external transport may feed
while offline (claim C4 quantifies over sequences of these). -/
inductive Feed where
  | closeSig (hasError : Option Bool)
  | errorSig
deriving DecidableEq

/-- Apply one fed input. -/
def feedStep : Feed → State T → State T × List (Action T)
  | Feed.closeSig h, s => feedClose h s
  | Feed.errorSig, s => feedError s

/-- Apply a sequence of fed inputs, accumulating the action trace. -/
def feedSeq : List Feed → State T → State T × List (Action T)
  | [], s => (s, [])
  | f :: rest, s =>
    let p := feedStep f s
    let q := feedSeq rest p.1
    (q.1, p.2 ++ q.2)

/-- The events the environment can deliver to an instance at an observation
point (public calls, fed transport signals, and completions of the three
suspension kinds). -/
inductive Step (T : Type) where
  | endReq (force : Option Bool)
  | reconnectReq
  | feedCloseSig (hasError : Option Bool)
  | feedErrorSig
  | feedHeartbeatSig
  | reschedulePingSig
  | connectResolved (c : T)
  | connectTimedOut
  | connectRejected (exhausted : Bool)
  | backoffFire
  | pingFire

/-- Interpretation of one step; a completion step whose suspension is not
actually pending leaves the state unchanged. -/
def stepFn (cfg : Config) : Step T → State T → State T × List (Action T)
  | Step.endReq f, s => endConnback f s
  | Step.reconnectReq, s => reconnect s
  | Step.feedCloseSig h, s => feedClose h s
  | Step.feedErrorSig, s => feedError s
  | Step.feedHeartbeatSig, s => (feedHeartbeat s, [])
  | Step.reschedulePingSig, s => reschedulePingTimer cfg s
  | Step.connectResolved c, s =>
    match s.connectRequest with
    | some o => connectResolve cfg c o s
    | none => (s, [])
  | Step.connectTimedOut, s =>
    match s.connectRequest with
    | some o => connectTimeout cfg o s
    | none => (s, [])
  | Step.connectRejected ex, s =>
    match s.connectRequest with
    | some o => connectReject o ex s
    | none => (s, [])
  | Step.backoffFire, s => if s.reconnectRequest then backoffAttempt s else (s, [])
  | Step.pingFire, s => if s.pingTimer then pingTimerFire s else (s, [])

/-- States reachable at observation points: the constructor runs `doConnect`
on the fresh field values, and then environment steps are interleaved. -/
inductive Reachable (cfg : Config) : State T → Prop where
  | init : Reachable cfg (doConnect Origin.ctor (initState T)).1
  | step (s : State T) (e : Step T) : Reachable cfg s → Reachable cfg (stepFn cfg e s).1

/-- Outcome of a backoff run: success or final failure, each tagged with the
number of attempts performed. -/
inductive BackoffResult (E : Type) where
  | success (attempts : Nat)
  | failure (e : E) (attempts : Nat)
deriving DecidableEq

/-- Modelled from the spec (§6 backoff policy contract) and the external
`@jil/backoff` scheduler, which is not under `src/`: invoke the attempt
function repeatedly; on the failure of attempt `n` consult the retry
predicate with the error and the attempt number, and stop — rejecting with
that error — when the predicate refuses or the attempt cap is reached.
`attempt n = none` means attempt `n` succeeds, `some e` that it fails
with `e`. -/
def backoffGo (attempt : Nat → Option E) (retry : E → Nat → Bool) (maxAttempts : Nat)
    (n : Nat) : BackoffResult E :=
  match attempt n with
  | none => BackoffResult.success n
  | some e =>
    if retry e n = true ∧ n < maxAttempts then backoffGo attempt retry maxAttempts (n + 1)
    else BackoffResult.failure e n
termination_by maxAttempts - n
decreasing_by omega

/-- A whole backoff run starts at attempt number 1. -/
def backoffRun (attempt : Nat → Option E) (retry : E → Nat → Bool) (maxAttempts : Nat) :
    BackoffResult E :=
  backoffGo attempt retry maxAttempts 1

/-! ### Helper lemmas: the ending/ended flags through each operation -/

theorem setupReconnect_flags (s : State T) :
    (setupReconnect s).1.ending = s.ending ∧ (setupReconnect s).1.ended = s.ended := by
  simp only [setupReconnect]
  split_ifs <;> simp_all

theorem close_flags (f : Option Bool) (s : State T) :
    (close f s).1.ending = s.ending ∧ (close f s).1.ended = s.ended := by
  simp only [close, cancelReconnect, setupReconnect]
  split_ifs <;> simp_all

theorem onClose_flags (s : State T) :
    (onClose s).1.ending = s.ending ∧ (onClose s).1.ended = s.ended := by
  simp only [onClose, setupReconnect]
  split_ifs <;> simp_all

theorem feedClose_flags (h : Option Bool) (s : State T) :
    (feedClose h s).1.ending = s.ending ∧ (feedClose h s).1.ended = s.ended := by
  simpa [feedClose] using onClose_flags s

theorem feedError_flags (s : State T) :
    (feedError s).1.ending = s.ending ∧ (feedError s).1.ended = s.ended := by
  simpa [feedError] using feedClose_flags none s

theorem doConnect_flags (o : Origin) (s : State T) :
    (doConnect o s).1.ending = s.ending ∧ (doConnect o s).1.ended = s.ended := by
  simp only [doConnect]
  split_ifs <;> simp_all

theorem onConnected_flags (cfg : Config) (s : State T) :
    (onConnected cfg s).1.ending = s.ending ∧ (onConnected cfg s).1.ended = s.ended := by
  simp only [onConnected, setupPingTimer]
  split_ifs <;> simp_all

theorem connectResolve_flags (cfg : Config) (c : T) (o : Origin) (s : State T) :
    (connectResolve cfg c o s).1.ending = s.ending ∧
      (connectResolve cfg c o s).1.ended = s.ended := by
  simp only [connectResolve, onConnected, setupPingTimer]
  split_ifs <;> simp_all

theorem connectTimeout_flags (cfg : Config) (o : Origin) (s : State T) :
    (connectTimeout cfg o s).1.ending = s.ending ∧
      (connectTimeout cfg o s).1.ended = s.ended := by
  simp only [connectTimeout, onConnected, setupPingTimer]
  split_ifs <;> simp_all

theorem connectReject_flags (o : Origin) (ex : Bool) (s : State T) :
    (connectReject o ex s).1.ending = s.ending ∧
      (connectReject o ex s).1.ended = s.ended := by
  cases o with
  | ctor => simpa [connectReject] using close_flags none s
  | manual => simp [connectReject]
  | fromBackoff =>
    have h := feedError_flags (T := T) s
    simp only [connectReject]
    split_ifs <;> simp_all

theorem checkPing_flags (s : State T) :
    (checkPing s).1.ending = s.ending ∧ (checkPing s).1.ended = s.ended := by
  simp only [checkPing]
  split_ifs with h
  · simp
  · exact close_flags (some true) s

theorem pingTimerFire_flags (s : State T) :
    (pingTimerFire s).1.ending = s.ending ∧ (pingTimerFire s).1.ended = s.ended := by
  have h := checkPing_flags (T := T) s
  simp only [pingTimerFire]
  split_ifs <;> simp_all

theorem reschedulePingTimer_flags (cfg : Config) (s : State T) :
    (reschedulePingTimer cfg s).1.ending = s.ending ∧
      (reschedulePingTimer cfg s).1.ended = s.ended := by
  simp only [reschedulePingTimer]
  split_ifs <;> simp_all

theorem close_misc (f : Option Bool) (s : State T) :
    (close f s).1.deferredReconnect = s.deferredReconnect ∧
      (close f s).1.connected = s.connected := by
  simp only [close, cancelReconnect, setupReconnect]
  split_ifs <;> simp_all

theorem endCore_flags (f : Option Bool) (s : State T) (h : s.ending = false) :
    (endCore f s).1.ending = true ∧ (endCore f s).1.ended = true ∧
      (endCore f s).1.deferredReconnect = s.deferredReconnect := by
  have h1 := close_flags (T := T) f { (cancelReconnect s).1 with ending := true }
  have h2 := close_misc (T := T) f { (cancelReconnect s).1 with ending := true }
  have h3 : (cancelReconnect s).1.deferredReconnect = s.deferredReconnect := by
    simp only [cancelReconnect]; split_ifs <;> simp
  unfold endCore
  rw [h]
  simp only [Bool.false_eq_true, if_false]
  refine ⟨?_, ?_, ?_⟩
  · rw [h1.1]
  · trivial
  · rw [h2.1, h3]

theorem doConnect_misc (o : Origin) (s : State T) :
    (doConnect o s).1.deferredReconnect = s.deferredReconnect := by
  simp only [doConnect]
  split_ifs <;> simp_all

/-- The ending/ended flags agree after `doReconnect` from a cleared state:
both stay `false`, or the inner `end` (taken when still connected) sets both
to `true`. -/
theorem doReconnect_inv (o : Origin) (s : State T) (h1 : s.ending = false)
    (h2 : s.ended = false) :
    (doReconnect o s).1.ended = true → (doReconnect o s).1.ending = true := by
  unfold doReconnect
  dsimp only
  split
  · have e1 := endCore_flags (T := T) none s h1
    have e2 := doConnect_flags (T := T) o (endCore none s).1
    intro _
    rw [e2.1, e1.1]
  · have e2 := doConnect_flags (T := T) o s
    intro hend
    rw [e2.2, h2] at hend
    exact absurd hend (by simp)

/-- After the `run` closure, the ending/ended flags agree. -/
theorem run_inv (o : Origin) (s : State T) :
    (run o s).1.ended = true → (run o s).1.ending = true := by
  unfold run
  exact doReconnect_inv o _ rfl rfl

theorem inv_of_flags {s t : State T}
    (hp : t.ending = s.ending ∧ t.ended = s.ended)
    (h : s.ended = true → s.ending = true) : t.ended = true → t.ending = true := by
  intro he
  rw [hp.1]
  exact h (hp.2 ▸ he)

/-- `doReconnect` preserves the ended-implies-ending invariant. -/
theorem doReconnect_inv2 (o : Origin) (s : State T)
    (h : s.ended = true → s.ending = true) :
    (doReconnect o s).1.ended = true → (doReconnect o s).1.ending = true := by
  unfold doReconnect
  dsimp only
  split
  · by_cases he : s.ending = true
    · have hid : endCore none s = (s, []) := by
        unfold endCore; rw [he]; simp
      rw [hid]
      exact inv_of_flags (doConnect_flags o s) h
    · have e1 := endCore_flags (T := T) none s (by simpa using he)
      have e2 := doConnect_flags (T := T) o (endCore none s).1
      intro _
      rw [e2.1, e1.1]
  · exact inv_of_flags (doConnect_flags o s) h

theorem reconnect_inv (s : State T) (h : s.ended = true → s.ending = true) :
    (reconnect s).1.ended = true → (reconnect s).1.ending = true := by
  unfold reconnect
  split
  · exact h
  · exact run_inv Origin.manual s

theorem endConnback_inv (f : Option Bool) (s : State T)
    (h : s.ended = true → s.ending = true) :
    (endConnback f s).1.ended = true → (endConnback f s).1.ending = true := by
  unfold endConnback
  dsimp only
  split
  · exact h
  · next hno =>
    split
    · exact run_inv Origin.manual (endCore f s).1
    · have e1 := endCore_flags (T := T) f s (by simpa using hno)
      intro _
      rw [e1.1]

/-- Every environment step preserves the ended-implies-ending invariant. -/
theorem stepFn_inv (cfg : Config) (e : Step T) (s : State T)
    (h : s.ended = true → s.ending = true) :
    (stepFn cfg e s).1.ended = true → (stepFn cfg e s).1.ending = true := by
  cases e with
  | endReq f => exact endConnback_inv f s h
  | reconnectReq => exact reconnect_inv s h
  | feedCloseSig hE => exact inv_of_flags (feedClose_flags hE s) h
  | feedErrorSig => exact inv_of_flags (feedError_flags s) h
  | feedHeartbeatSig => exact h
  | reschedulePingSig => exact inv_of_flags (reschedulePingTimer_flags cfg s) h
  | connectResolved c =>
    simp only [stepFn]
    cases hcr : s.connectRequest with
    | none => exact h
    | some o => exact inv_of_flags (connectResolve_flags cfg c o s) h
  | connectTimedOut =>
    simp only [stepFn]
    cases hcr : s.connectRequest with
    | none => exact h
    | some o => exact inv_of_flags (connectTimeout_flags cfg o s) h
  | connectRejected ex =>
    simp only [stepFn]
    cases hcr : s.connectRequest with
    | none => exact h
    | some o => exact inv_of_flags (connectReject_flags o ex s) h
  | backoffFire =>
    simp only [stepFn]
    split
    · exact doReconnect_inv2 Origin.fromBackoff s h
    · exact h
  | pingFire =>
    simp only [stepFn]
    split
    · exact inv_of_flags (pingTimerFire_flags s) h
    · exact h

/-- C8: In every reachable state, `ended = true` implies `ending = true`:
`end()` sets `ending` before `ended` with no suspension in between, and the
`run` closure of `reconnect()` clears both together, so the combination
ended-and-not-ending is never observable (which also makes the `ended` check
inside `setupReconnect` unreachable after its `ending` guard). -/
theorem reachable_ended_implies_ending (cfg : Config) (s : State T)
    (h : Reachable cfg s) : s.ended = true → s.ending = true := by
  induction h with
  | init =>
    have hf := doConnect_flags (T := T) Origin.ctor (initState T)
    intro he
    rw [hf.2] at he
    exact absurd he (by simp [initState])
  | step s e _ ih => exact stepFn_inv cfg e s ih

/-- Witness for C8 at a concrete reachable state: construct, then `end()`;
the resulting state has `ended = true`, and the theorem yields
`ending = true` there. -/
theorem reachable_ended_implies_ending_witness :
    (stepFn ⟨60, 30000⟩ (Step.endReq none)
        (doConnect Origin.ctor (initState Nat)).1).1.ended = true ∧
      (stepFn ⟨60, 30000⟩ (Step.endReq none)
        (doConnect Origin.ctor (initState Nat)).1).1.ending = true :=
  ⟨by decide,
    reachable_ended_implies_ending ⟨60, 30000⟩ _
      (Reachable.step _ (Step.endReq none) Reachable.init) (by decide)⟩

/-! ### Helper lemmas: action lists of `close` and `endCore` -/

theorem close_no_end (f : Option Bool) (s : State T) :
    (Action.emitEnd : Action T) ∉ (close f s).2 := by
  cases hcl : s.client <;>
    simp only [close, cancelReconnect, setupReconnect, hcl] <;>
    split_ifs <;> simp

theorem close_pingTimer (f : Option Bool) (s : State T) :
    (close f s).1.pingTimer = false := rfl

theorem endCore_count_end [DecidableEq T] (f : Option Bool) (s : State T)
    (h : s.ending = false) :
    (endCore f s).2.count (Action.emitEnd : Action T) = 1 := by
  unfold endCore
  rw [h]
  have h1 : (cancelReconnect s).2.count (Action.emitEnd : Action T) = 0 := by
    unfold cancelReconnect; split_ifs <;> simp
  have h2 : (close f { (cancelReconnect s).1 with ending := true }).2.count
      (Action.emitEnd : Action T) = 0 :=
    List.count_eq_zero.mpr (close_no_end f _)
  simp [List.count_append, h1, h2]

/-- With no deferred reconnect stored, `end()` is exactly its core body. -/
theorem endConnback_no_deferred (f : Option Bool) (s : State T)
    (h1 : s.ending = false) (h2 : s.deferredReconnect = false) :
    endConnback f s = endCore f s := by
  unfold endConnback
  dsimp only
  rw [h1]
  simp only [Bool.false_eq_true, if_false]
  have hd : (endCore f s).1.deferredReconnect = false := by
    rw [(endCore_flags f s h1).2.2, h2]
  rw [hd]
  simp

/-- Normal form of the `end()` core body when no client handle exists. -/
theorem endCore_eq_no_client (f : Option Bool) (s : State T)
    (h1 : s.ending = false) (h2 : s.client = none) :
    endCore f s =
      ({ s with
          reconnectRequest := false
          pingTimer := false
          ending := true
          ended := true
          connecting := false },
        (if s.reconnectRequest then [Action.cancelBackoff] else ([] : List (Action T))) ++
          [Action.emitEnd]) := by
  unfold endCore close cancelReconnect setupReconnect
  rw [h1]
  split_ifs <;> simp_all

/-! ### Claim theorems -/

/-- C2: `end()` while already ending is a no-op returning the same instance
handle (modelled as an unchanged state with no actions), and across two
calls in immediate succession the `end` event is emitted exactly once. -/
theorem end_idempotent [DecidableEq T] (f1 f2 : Option Bool) (s : State T) :
    (s.ending = true → endConnback f1 s = (s, [])) ∧
      (s.ending = false → s.deferredReconnect = false →
        endConnback f2 (endConnback f1 s).1 = ((endConnback f1 s).1, []) ∧
          ((endConnback f1 s).2 ++
              (endConnback f2 (endConnback f1 s).1).2).count (Action.emitEnd : Action T)
            = 1) := by
  have noop : ∀ (f : Option Bool) (t : State T), t.ending = true → endConnback f t = (t, []) := by
    intro f t h
    unfold endConnback
    rw [h]
    simp
  refine ⟨noop f1 s, ?_⟩
  intro h1 h2
  rw [endConnback_no_deferred f1 s h1 h2]
  have hflags := endCore_flags f1 s h1
  have hsecond := noop f2 (endCore f1 s).1 hflags.1
  refine ⟨hsecond, ?_⟩
  rw [hsecond]
  simp [List.count_append, endCore_count_end f1 s h1]

/-- Witness for C2 at the fresh state. -/
theorem end_idempotent_witness :
    endConnback none (endConnback none (initState Nat)).1 =
        ((endConnback none (initState Nat)).1, []) ∧
      ((endConnback none (initState Nat)).2 ++
          (endConnback none (endConnback none (initState Nat)).1).2).count
        (Action.emitEnd : Action Nat) = 1 :=
  (end_idempotent none none (initState Nat)).2 rfl rfl

/-- C6: at most one connect attempt and at most one backoff wait are
outstanding (each is a single optional slot); a connect request while one is
outstanding (`connecting` true) is a no-op changing no state, scheduling a
backoff while one is outstanding is a no-op, and a backoff firing while a
connect attempt is outstanding only emits `reconnect` without starting a
second attempt. -/
theorem single_outstanding (o : Origin) (s : State T) :
    (s.connecting = true → doConnect o s = (s, [])) ∧
      (s.reconnectRequest = true → setupReconnect s = (s, [])) ∧
      (s.connecting = true → s.connected = false →
        backoffAttempt s = (s, [Action.emitReconnect])) := by
  refine ⟨?_, ?_, ?_⟩
  · intro h
    unfold doConnect
    rw [h]
    simp
  · intro h
    unfold setupReconnect
    rw [h]
    simp
  · intro h1 h2
    unfold backoffAttempt doReconnect doConnect
    simp [h1, h2]

/-- Witness for C6: right after construction a connect attempt is
outstanding; a second request is a no-op. -/
theorem single_outstanding_witness :
    doConnect Origin.manual (doConnect Origin.ctor (initState Nat)).1 =
      ((doConnect Origin.ctor (initState Nat)).1, []) :=
  (single_outstanding Origin.manual (doConnect Origin.ctor (initState Nat)).1).1 (by decide)

/-- C9: `end()` on an instance that never obtained a client handle still
cancels a pending backoff wait, reaches Ended, and emits `end` exactly once,
without ever invoking the connector's close operation. -/
theorem end_without_client [DecidableEq T] (f : Option Bool) (s : State T)
    (h1 : s.ending = false) (h2 : s.client = none) (h3 : s.deferredReconnect = false) :
    (endConnback f s).1.ended = true ∧
      (endConnback f s).1.ending = true ∧
      (endConnback f s).2.count (Action.emitEnd : Action T) = 1 ∧
      (endConnback f s).1.reconnectRequest = false ∧
      (s.reconnectRequest = true → (Action.cancelBackoff : Action T) ∈ (endConnback f s).2) ∧
      (∀ (c : T) (fo : Option Bool), Action.connectorClose c fo ∉ (endConnback f s).2) := by
  rw [endConnback_no_deferred f s h1 h3, endCore_eq_no_client f s h1 h2]
  refine ⟨rfl, rfl, ?_, rfl, ?_, ?_⟩
  · split_ifs <;> simp
  · intro h
    rw [h]
    simp
  · intro c fo
    split_ifs <;> simp

/-- Witness for C9: construction against a never-resolving connector, a
backoff wait pending after a fed close, then `end()`. -/
theorem end_without_client_witness :
    (endConnback none (feedClose none (doConnect Origin.ctor (initState Nat)).1).1).1.ended
        = true ∧
      (Action.cancelBackoff : Action Nat) ∈
        (endConnback none (feedClose none (doConnect Origin.ctor (initState Nat)).1).1).2 := by
  have h := end_without_client (T := Nat) none
    (feedClose none (doConnect Origin.ctor (initState Nat)).1).1
    (by decide) (by decide) (by decide)
  exact ⟨h.1, h.2.2.2.2.1 (by decide)⟩

/-- C5: each firing of the armed keepalive timer: with the heartbeat flag
set it clears the flag, invokes the connector's ping, and rearms the timer;
with the flag clear it performs a forced close (`close` with `force = true`)
of the connection, with no ping and no rearm. -/
theorem keepalive_check (s : State T) (c : T) (hp : s.pingTimer = true) :
    (s.alive = true →
      pingTimerFire s =
        ({ s with alive := false }, [Action.connectorPing s.client, Action.rearmPing])) ∧
      (s.alive = false → s.client = some c →
        Action.connectorClose c (some true) ∈ (pingTimerFire s).2 ∧
          (∀ oc : Option T, Action.connectorPing oc ∉ (pingTimerFire s).2) ∧
          (Action.rearmPing : Action T) ∉ (pingTimerFire s).2) := by
  constructor
  · intro ha
    unfold pingTimerFire checkPing
    rw [ha]
    simp [hp]
  · intro ha hc
    have hfire : pingTimerFire s = close (some true) s := by
      unfold pingTimerFire checkPing
      rw [ha]
      simp [close_pingTimer]
    rw [hfire]
    cases hrr : s.reconnectRequest <;> cases he : s.ending <;>
      cases hre : s.reconnecting <;> cases hed : s.ended <;>
      simp [close, cancelReconnect, setupReconnect, hc, hrr, he, hre, hed]

/-- Witness for C5 in the heartbeat-present case, at the state reached after
a connect resolves (timer armed, flag set). -/
theorem keepalive_check_witness :
    pingTimerFire (connectResolve ⟨60, 30000⟩ 7 Origin.ctor
        (doConnect Origin.ctor (initState Nat)).1).1 =
      ({ (connectResolve ⟨60, 30000⟩ 7 Origin.ctor
          (doConnect Origin.ctor (initState Nat)).1).1 with alive := false },
        [Action.connectorPing (some 7), Action.rearmPing]) :=
  (keepalive_check (connectResolve ⟨60, 30000⟩ 7 Origin.ctor
      (doConnect Origin.ctor (initState Nat)).1).1 7 (by decide)).1 (by decide)

theorem close_no_reconnectEv (f : Option Bool) (s : State T) :
    (Action.emitReconnect : Action T) ∉ (close f s).2 := by
  cases hcl : s.client <;>
    simp only [close, cancelReconnect, setupReconnect, hcl] <;>
    split_ifs <;> simp

theorem close_connecting (f : Option Bool) (s : State T) :
    (close f s).1.connecting = false := by
  simp only [close, cancelReconnect, setupReconnect]
  split_ifs <;> simp

theorem close_acts_cons (f : Option Bool) (s : State T) (c : T) (h : s.client = some c) :
    ∃ rest, (close f s).2 = Action.connectorClose c f :: rest := by
  simp only [close, h]
  exact ⟨_, rfl⟩

/-- Shape of the `end()` core action list: some cancellation/offline actions,
then the single `end` emission last. -/
theorem endCore_acts_shape (f : Option Bool) (s : State T) (h : s.ending = false) :
    ∃ A, (endCore f s).2 = A ++ [Action.emitEnd] ∧
      (Action.emitEnd : Action T) ∉ A ∧ (Action.emitReconnect : Action T) ∉ A := by
  unfold endCore
  rw [h]
  simp only [Bool.false_eq_true, if_false]
  refine ⟨(cancelReconnect s).2 ++ (close f { (cancelReconnect s).1 with ending := true }).2,
    by simp, ?_, ?_⟩
  · have hc := close_no_end (T := T) f { (cancelReconnect s).1 with ending := true }
    have hcan : (Action.emitEnd : Action T) ∉ (cancelReconnect s).2 := by
      unfold cancelReconnect; split_ifs <;> simp
    simp only [List.mem_append]
    push_neg
    exact ⟨hcan, hc⟩
  · have hc := close_no_reconnectEv (T := T) f { (cancelReconnect s).1 with ending := true }
    have hcan : (Action.emitReconnect : Action T) ∉ (cancelReconnect s).2 := by
      unfold cancelReconnect; split_ifs <;> simp
    simp only [List.mem_append]
    push_neg
    exact ⟨hcan, hc⟩

theorem doConnect_no_reconnectEv (o : Origin) (s : State T) :
    (Action.emitReconnect : Action T) ∉ (doConnect o s).2 := by
  unfold doConnect
  split_ifs <;> simp

/-- Shape of the `run` closure's action list: the `reconnect` emission first,
and only once. -/
theorem run_acts_shape (o : Origin) (s : State T) :
    ∃ rest, (run o s).2 = Action.emitReconnect :: rest ∧
      (Action.emitReconnect : Action T) ∉ rest := by
  unfold run doReconnect
  dsimp only
  refine ⟨_, rfl, ?_⟩
  simp only [List.mem_append]
  push_neg
  constructor
  · split
    · obtain ⟨A, hA, _, hR⟩ :=
        endCore_acts_shape (T := T) none
          { s with ending := false, ended := false, deferredReconnect := false } rfl
      rw [hA]
      simp [hR]
    · simp
  · exact doConnect_no_reconnectEv o _

/-- The deferred slot is clear after the `run` closure. -/
theorem run_deferred (o : Origin) (s : State T) :
    (run o s).1.deferredReconnect = false := by
  unfold run doReconnect
  dsimp only
  rw [doConnect_misc]
  split
  · exact (endCore_flags (T := T) none _ rfl).2.2
  · rfl

/-- C3: a `reconnect()` while `ending` is true and `ended` still false does
not execute: it only stores the deferred request, with no events.  The
stored request executes exactly once, immediately after Ended is reached
inside `end()`: the action trace has the single `reconnect` emission
directly after the `end` emission, and the deferred slot is consumed.  If
Ended is not reached (an `end()` that observes `ending` already true
returns early), nothing executes. -/
theorem deferred_reconnect [DecidableEq T] (f : Option Bool) (s : State T) :
    (s.ending = true → s.ended = false →
      reconnect s = ({ s with deferredReconnect := true }, [])) ∧
      (s.ending = false → s.deferredReconnect = true →
        (∃ A rest, (endConnback f s).2 =
            A ++ Action.emitEnd :: Action.emitReconnect :: rest ∧
            (Action.emitReconnect : Action T) ∉ A ∧
            (Action.emitReconnect : Action T) ∉ rest) ∧
          (endConnback f s).2.count (Action.emitReconnect : Action T) = 1 ∧
          (endConnback f s).1.deferredReconnect = false) ∧
      (s.ending = true → endConnback f s = (s, [])) := by
  refine ⟨?_, ?_, ?_⟩
  · intro h1 h2
    unfold reconnect
    rw [h1, h2]
    simp
  · intro h1 h2
    have hflags := endCore_flags f s h1
    have hdef : (endCore f s).1.deferredReconnect = true := by rw [hflags.2.2, h2]
    have hend : endConnback f s =
        ((run Origin.manual (endCore f s).1).1,
          (endCore f s).2 ++ (run Origin.manual (endCore f s).1).2) := by
      unfold endConnback
      dsimp only
      rw [h1]
      simp only [Bool.false_eq_true, if_false, hdef, if_true]
    obtain ⟨A, hA, hAe, hAr⟩ := endCore_acts_shape f s h1
    obtain ⟨rest, hrest, hrestr⟩ := run_acts_shape Origin.manual (endCore f s).1
    rw [hend]
    refine ⟨⟨A, rest, ?_, hAr, hrestr⟩, ?_, ?_⟩
    · rw [hA, hrest]
      simp
    · rw [hA, hrest]
      simp [List.count_append, List.count_cons, hAr,
        List.count_eq_zero.mpr hAr, List.count_eq_zero.mpr hrestr]
    · exact run_deferred Origin.manual (endCore f s).1
  · intro h1
    unfold endConnback
    rw [h1]
    simp

/-- Witness for C3: storing at an ending-but-not-ended state, and consuming
through `end()` at a state holding a deferred request. -/
theorem deferred_reconnect_witness :
    reconnect { initState Nat with ending := true } =
        ({ { initState Nat with ending := true } with deferredReconnect := true }, []) ∧
      (endConnback none { initState Nat with deferredReconnect := true }).1.deferredReconnect
        = false :=
  ⟨(deferred_reconnect none { initState Nat with ending := true }).1 (by decide) (by decide),
    ((deferred_reconnect none
        { initState Nat with deferredReconnect := true }).2.1 (by decide) (by decide)).2.2⟩

theorem connectResolve_connected (cfg : Config) (c : T) (o : Origin) (s : State T) :
    (connectResolve cfg c o s).1.connected = true := by
  unfold connectResolve onConnected setupPingTimer
  dsimp only
  split <;> split <;> rfl

theorem endCore_acts_eq (f : Option Bool) (s : State T) (h : s.ending = false) :
    (endCore f s).2 = (cancelReconnect s).2 ++
      (close f { (cancelReconnect s).1 with ending := true }).2 ++ [Action.emitEnd] := by
  unfold endCore
  rw [h]
  simp

theorem endCore_state_eq (f : Option Bool) (s : State T) (h : s.ending = false) :
    (endCore f s).1 =
      { (close f { (cancelReconnect s).1 with ending := true }).1 with ended := true } := by
  unfold endCore
  rw [h]
  simp

theorem cancelReconnect_client (s : State T) :
    (cancelReconnect s).1.client = s.client := by
  unfold cancelReconnect
  split_ifs <;> rfl

theorem run_eq_of_connected (o : Origin) (s : State T) (h : s.connected = true) :
    run o s =
      ((doConnect o (endCore none
          { s with ending := false, ended := false, deferredReconnect := false }).1).1,
        Action.emitReconnect ::
          ((endCore none
              { s with ending := false, ended := false, deferredReconnect := false }).2 ++
            (doConnect o (endCore none
              { s with ending := false, ended := false, deferredReconnect := false }).1).2)) := by
  unfold run doReconnect
  dsimp only
  split
  · rfl
  · simp_all

/-- C10: `reconnect()` while Connected performs a full `end()` internally
before the new connect attempt: the `end` event is emitted, the connector's
close operation is invoked on the live handle, and the `ending` flag set by
that internal `end()` is not cleared again before the new attempt — it is
still true with the new attempt pending, and still true when that attempt
later resolves into the established connection. -/
theorem reconnect_while_connected (cfg : Config) (s : State T) (c c2 : T)
    (h1 : s.connected = true) (h2 : s.ending = false) (h3 : s.client = some c) :
    Action.emitEnd ∈ (reconnect s).2 ∧
      Action.connectorClose c none ∈ (reconnect s).2 ∧
      (reconnect s).1.ending = true ∧
      (reconnect s).1.ended = true ∧
      (reconnect s).1.connecting = true ∧
      (reconnect s).1.connectRequest = some Origin.manual ∧
      (connectResolve cfg c2 Origin.manual (reconnect s).1).1.ending = true ∧
      (connectResolve cfg c2 Origin.manual (reconnect s).1).1.connected = true := by
  have hrec : reconnect s = run Origin.manual s := by
    unfold reconnect
    rw [h2]
    simp
  rw [hrec, run_eq_of_connected Origin.manual s h1]
  have hflags := endCore_flags (T := T) none
    { s with ending := false, ended := false, deferredReconnect := false } rfl
  have hconnE : (endCore none
      { s with ending := false, ended := false, deferredReconnect := false }).1.connecting
        = false := by
    rw [endCore_state_eq none _ rfl]
    exact close_connecting none _
  have hdo : doConnect Origin.manual (endCore none
      { s with ending := false, ended := false, deferredReconnect := false }).1 =
      ({ (endCore none
          { s with ending := false, ended := false, deferredReconnect := false }).1 with
            connecting := true, connectRequest := some Origin.manual },
        [Action.connectorConnect]) := by
    unfold doConnect
    rw [hconnE]
    simp
  have hclC : (State.client (T := T)
      { (cancelReconnect
          { s with ending := false, ended := false, deferredReconnect := false }).1 with
            ending := true }) = some c := by
    show (cancelReconnect
      { s with ending := false, ended := false, deferredReconnect := false }).1.client = some c
    rw [cancelReconnect_client]
    exact h3
  obtain ⟨rest, hrest⟩ := close_acts_cons none
    { (cancelReconnect
        { s with ending := false, ended := false, deferredReconnect := false }).1 with
          ending := true } c hclC
  have hacts := endCore_acts_eq (T := T) none
    { s with ending := false, ended := false, deferredReconnect := false } rfl
  rw [hrest] at hacts
  refine ⟨?_, ?_, ?_, ?_, ?_, ?_, ?_, ?_⟩
  · simp [hacts]
  · simp [hacts]
  · rw [hdo]
    exact hflags.1
  · rw [hdo]
    exact hflags.2.1
  · rw [hdo]
  · rw [hdo]
  · rw [hdo]
    have hcr := connectResolve_flags (T := T) cfg c2 Origin.manual
      ({ (endCore none
          { s with ending := false, ended := false, deferredReconnect := false }).1 with
            connecting := true, connectRequest := some Origin.manual })
    rw [hcr.1]
    exact hflags.1
  · exact connectResolve_connected cfg c2 Origin.manual _

/-- Witness for C10 at the connected state reached after construction and a
resolved connect attempt. -/
theorem reconnect_while_connected_witness :
    Action.connectorClose 7 none ∈
        (reconnect (connectResolve ⟨60, 30000⟩ 7 Origin.ctor
          (doConnect Origin.ctor (initState Nat)).1).1).2 ∧
      (reconnect (connectResolve ⟨60, 30000⟩ 7 Origin.ctor
        (doConnect Origin.ctor (initState Nat)).1).1).1.ending = true := by
  have h := reconnect_while_connected ⟨60, 30000⟩
    (connectResolve ⟨60, 30000⟩ 7 Origin.ctor (doConnect Origin.ctor (initState Nat)).1).1
    7 9 (by decide) (by decide) (by decide)
  exact ⟨h.2.1, h.2.2.1⟩

/-! ### Helper lemmas for the offline/reconnecting bookkeeping (C4) -/

theorem setupReconnect_mono (s : State T) (h : s.reconnecting = true) :
    (setupReconnect s).1.reconnecting = true ∧
      (Action.emitOffline : Action T) ∉ (setupReconnect s).2 := by
  unfold setupReconnect
  split_ifs <;> simp_all
  split <;> simp_all

theorem cancelReconnect_reconnecting (s : State T) :
    (cancelReconnect s).1.reconnecting = s.reconnecting := by
  unfold cancelReconnect
  split_ifs <;> rfl

theorem cancelReconnect_no_offline (s : State T) :
    (Action.emitOffline : Action T) ∉ (cancelReconnect s).2 := by
  unfold cancelReconnect
  split_ifs <;> simp

theorem close_mono (f : Option Bool) (s : State T) (h : s.reconnecting = true) :
    (close f s).1.reconnecting = true ∧
      (Action.emitOffline : Action T) ∉ (close f s).2 := by
  cases hcl : s.client <;>
    simp only [close, cancelReconnect, setupReconnect, hcl] <;>
    split_ifs <;> simp_all

theorem close_ending_no_offline (f : Option Bool) (s : State T) (h : s.ending = true) :
    (Action.emitOffline : Action T) ∉ (close f s).2 := by
  cases hcl : s.client <;>
    simp only [close, cancelReconnect, setupReconnect, hcl] <;>
    split_ifs <;> simp_all

theorem close_reconnecting_of_ending (f : Option Bool) (s : State T) (h : s.ending = true) :
    (close f s).1.reconnecting = s.reconnecting := by
  simp only [close, cancelReconnect, setupReconnect]
  split_ifs <;> simp_all

theorem endCore_no_offline (f : Option Bool) (s : State T) :
    (Action.emitOffline : Action T) ∉ (endCore f s).2 := by
  by_cases he : s.ending = true
  · unfold endCore
    rw [he]
    simp
  · rw [endCore_acts_eq f s (by simpa using he)]
    simp only [List.mem_append, List.mem_singleton]
    push_neg
    exact ⟨⟨cancelReconnect_no_offline s,
      close_ending_no_offline f _ rfl⟩, by simp⟩

theorem endCore_reconnecting (f : Option Bool) (s : State T) :
    (endCore f s).1.reconnecting = s.reconnecting := by
  by_cases he : s.ending = true
  · unfold endCore
    rw [he]
    simp
  · rw [endCore_state_eq f s (by simpa using he)]
    show (close f { (cancelReconnect s).1 with ending := true }).1.reconnecting = s.reconnecting
    rw [close_reconnecting_of_ending f _ rfl]
    exact cancelReconnect_reconnecting s

theorem doConnect_reconnecting (o : Origin) (s : State T) :
    (doConnect o s).1.reconnecting = s.reconnecting := by
  unfold doConnect
  split_ifs <;> rfl

theorem doConnect_no_offline (o : Origin) (s : State T) :
    (Action.emitOffline : Action T) ∉ (doConnect o s).2 := by
  unfold doConnect
  split_ifs <;> simp

theorem doReconnect_reconnecting (o : Origin) (s : State T) :
    (doReconnect o s).1.reconnecting = s.reconnecting := by
  unfold doReconnect
  dsimp only
  rw [doConnect_reconnecting]
  split
  · exact endCore_reconnecting none s
  · rfl

/-- A backoff attempt never emits `offline` (per-attempt `reconnect` only,
claim C4's "never once per retry attempt"). -/
theorem doReconnect_no_offline (o : Origin) (s : State T) :
    (Action.emitOffline : Action T) ∉ (doReconnect o s).2 := by
  unfold doReconnect
  dsimp only
  simp only [List.mem_cons, List.mem_append]
  push_neg
  refine ⟨by simp, ?_, doConnect_no_offline o _⟩
  split
  · exact endCore_no_offline none s
  · simp

theorem onClose_mono (s : State T) (h : s.reconnecting = true) :
    (onClose s).1.reconnecting = true ∧
      (Action.emitOffline : Action T) ∉ (onClose s).2 := by
  simp only [onClose, setupReconnect]
  split_ifs <;> simp_all

theorem feedStep_mono (f : Feed) (s : State T) (h : s.reconnecting = true) :
    (feedStep f s).1.reconnecting = true ∧
      (Action.emitOffline : Action T) ∉ (feedStep f s).2 := by
  have hm := onClose_mono s h
  cases f with
  | closeSig hE =>
    simp only [feedStep, feedClose]
    exact ⟨hm.1, by simp [List.mem_append, hm.2]⟩
  | errorSig =>
    simp only [feedStep, feedError, feedClose]
    exact ⟨hm.1, by simp [List.mem_append, hm.2]⟩

/-- While already reconnecting, fed close/error signals never emit `offline`
and leave the reconnecting flag set. -/
theorem feedSeq_offline_zero [DecidableEq T] (l : List Feed) (s : State T)
    (h : s.reconnecting = true) :
    (feedSeq l s).2.count (Action.emitOffline : Action T) = 0 ∧
      (feedSeq l s).1.reconnecting = true := by
  induction l generalizing s with
  | nil => simpa [feedSeq]
  | cons f rest ih =>
    have hf := feedStep_mono f s h
    have hr := ih (feedStep f s).1 hf.1
    unfold feedSeq
    dsimp only
    refine ⟨?_, hr.2⟩
    rw [List.count_append, List.count_eq_zero.mpr hf.2, hr.1]

theorem run_mono (o : Origin) (s : State T) (h : s.reconnecting = true) :
    (run o s).1.reconnecting = true ∧
      (Action.emitOffline : Action T) ∉ (run o s).2 := by
  unfold run
  constructor
  · rw [doReconnect_reconnecting]
    exact h
  · exact doReconnect_no_offline o _

theorem reconnect_mono (s : State T) (h : s.reconnecting = true) :
    (reconnect s).1.reconnecting = true ∧
      (Action.emitOffline : Action T) ∉ (reconnect s).2 := by
  unfold reconnect
  split
  · exact ⟨h, by simp⟩
  · exact run_mono Origin.manual s h

theorem endConnback_mono (f : Option Bool) (s : State T) (h : s.reconnecting = true) :
    (endConnback f s).1.reconnecting = true ∧
      (Action.emitOffline : Action T) ∉ (endConnback f s).2 := by
  unfold endConnback
  dsimp only
  split
  · exact ⟨h, by simp⟩
  · split
    · have hrt : (endCore f s).1.reconnecting = true := by
        rw [endCore_reconnecting]
        exact h
      have h2 := run_mono Origin.manual (endCore f s).1 hrt
      refine ⟨h2.1, ?_⟩
      simp only [List.mem_append]
      push_neg
      exact ⟨endCore_no_offline f s, h2.2⟩
    · exact ⟨by rw [endCore_reconnecting]; exact h, endCore_no_offline f s⟩

theorem checkPing_mono (s : State T) (h : s.reconnecting = true) :
    (checkPing s).1.reconnecting = true ∧
      (Action.emitOffline : Action T) ∉ (checkPing s).2 := by
  unfold checkPing
  split
  · exact ⟨h, by simp⟩
  · exact close_mono (some true) s h

theorem pingTimerFire_mono (s : State T) (h : s.reconnecting = true) :
    (pingTimerFire s).1.reconnecting = true ∧
      (Action.emitOffline : Action T) ∉ (pingTimerFire s).2 := by
  have hc := checkPing_mono s h
  unfold pingTimerFire
  dsimp only
  split
  · refine ⟨hc.1, ?_⟩
    simp only [List.mem_append]
    push_neg
    exact ⟨hc.2, by simp⟩
  · exact hc

theorem connectReject_mono (o : Origin) (ex : Bool) (s : State T) (h : s.reconnecting = true) :
    (connectReject o ex s).1.reconnecting = true ∧
      (Action.emitOffline : Action T) ∉ (connectReject o ex s).2 := by
  cases o with
  | ctor => exact close_mono none s h
  | manual => exact ⟨h, by simp [connectReject]⟩
  | fromBackoff =>
    have hf := feedStep_mono Feed.errorSig s h
    unfold connectReject
    dsimp only
    refine ⟨?_, hf.2⟩
    split <;> exact hf.1

theorem reschedulePingTimer_state (cfg : Config) (s : State T) :
    (reschedulePingTimer cfg s).1 = s := by
  unfold reschedulePingTimer
  split <;> rfl

theorem connectResolve_acts (cfg : Config) (c : T) (o : Origin) (s : State T) :
    (connectResolve cfg c o s).2 =
      [Action.emitConnect (connectResolve cfg c o s).1.client] := by
  unfold connectResolve onConnected
  dsimp only
  split <;> rfl

theorem connectTimeout_acts (cfg : Config) (o : Origin) (s : State T) :
    (connectTimeout cfg o s).2 =
      [Action.cancelConnectReq, Action.emitConnect (connectTimeout cfg o s).1.client] := by
  unfold connectTimeout onConnected
  dsimp only
  split <;> rfl

theorem setupReconnect_first (s : State T) (h1 : s.ending = false) (h2 : s.ended = false)
    (h3 : s.reconnecting = false) (h4 : s.reconnectRequest = false) :
    setupReconnect s =
      ({ s with reconnecting := true, reconnectRequest := true }, [Action.emitOffline]) := by
  unfold setupReconnect
  simp [h1, h2, h3, h4]

theorem onClose_first [DecidableEq T] (s : State T) (h1 : s.ending = false)
    (h2 : s.ended = false) (h3 : s.reconnecting = false) (h4 : s.reconnectRequest = false) :
    (onClose s).2.count (Action.emitOffline : Action T) = 1 ∧
      (onClose s).1.reconnecting = true := by
  unfold onClose
  dsimp only
  split
  · rw [setupReconnect_first _ (by exact h1) (by exact h2) (by exact h3) (by exact h4)]
    simp
  · rw [setupReconnect_first _ (by exact h1) (by exact h2) (by exact h3) (by exact h4)]
    simp

theorem feedStep_first [DecidableEq T] (f : Feed) (s : State T) (h1 : s.ending = false)
    (h2 : s.ended = false) (h3 : s.reconnecting = false) (h4 : s.reconnectRequest = false) :
    (feedStep f s).2.count (Action.emitOffline : Action T) = 1 ∧
      (feedStep f s).1.reconnecting = true := by
  have ho := onClose_first s h1 h2 h3 h4
  cases f with
  | closeSig hE =>
    simp only [feedStep, feedClose]
    exact ⟨by simp [List.count_append, ho.1], ho.2⟩
  | errorSig =>
    simp only [feedStep, feedError, feedClose]
    exact ⟨by simp [List.count_append, List.count_cons, ho.1], ho.2⟩

/-- C4: over any sequence of fed close/error signals while not ending,
`offline` is emitted exactly once on the transition from a non-reconnecting
state into Reconnecting and zero times while already reconnecting; a backoff
retry attempt never emits `offline`; and the reconnecting flag is cleared
only by a step whose trace contains a `connect` emission (a successfully
established connection). -/
theorem offline_once [DecidableEq T] (l : List Feed) (s : State T) :
    (s.ending = false → s.ended = false → s.reconnecting = false →
        s.reconnectRequest = false → l ≠ [] →
        (feedSeq l s).2.count (Action.emitOffline : Action T) = 1) ∧
      (s.reconnecting = true →
        (feedSeq l s).2.count (Action.emitOffline : Action T) = 0) ∧
      (Action.emitOffline : Action T) ∉ (backoffAttempt s).2 ∧
      (∀ (cfg : Config) (e : Step T), s.reconnecting = true →
        (stepFn cfg e s).1.reconnecting = false →
        ∃ oc, Action.emitConnect oc ∈ (stepFn cfg e s).2) := by
  refine ⟨?_, ?_, ?_, ?_⟩
  · intro h1 h2 h3 h4 hl
    match l with
    | [] => exact absurd rfl hl
    | f :: rest =>
      have hf := feedStep_first f s h1 h2 h3 h4
      have hz := feedSeq_offline_zero rest (feedStep f s).1 hf.2
      show ((feedStep f s).2 ++ (feedSeq rest (feedStep f s).1).2).count _ = 1
      rw [List.count_append, hf.1, hz.1]
  · intro h
    exact (feedSeq_offline_zero l s h).1
  · exact doReconnect_no_offline Origin.fromBackoff s
  · intro cfg e hrec hfalse
    cases e with
    | endReq f =>
      rw [show (stepFn cfg (Step.endReq f) s).1.reconnecting = true from
        (endConnback_mono f s hrec).1] at hfalse
      exact absurd hfalse (by simp)
    | reconnectReq =>
      rw [show (stepFn cfg (Step.reconnectReq) s).1.reconnecting = true from
        (reconnect_mono s hrec).1] at hfalse
      exact absurd hfalse (by simp)
    | feedCloseSig hE =>
      rw [show (stepFn cfg (Step.feedCloseSig hE) s).1.reconnecting = true from
        (feedStep_mono (Feed.closeSig hE) s hrec).1] at hfalse
      exact absurd hfalse (by simp)
    | feedErrorSig =>
      rw [show (stepFn cfg (Step.feedErrorSig) s).1.reconnecting = true from
        (feedStep_mono Feed.errorSig s hrec).1] at hfalse
      exact absurd hfalse (by simp)
    | feedHeartbeatSig =>
      rw [show (stepFn cfg (Step.feedHeartbeatSig) s).1.reconnecting = true from hrec] at hfalse
      exact absurd hfalse (by simp)
    | reschedulePingSig =>
      rw [show (stepFn cfg (Step.reschedulePingSig) s).1.reconnecting = true by
        rw [show (stepFn cfg (Step.reschedulePingSig) s).1 = s from
          reschedulePingTimer_state cfg s]
        exact hrec] at hfalse
      exact absurd hfalse (by simp)
    | connectResolved c =>
      simp only [stepFn] at hfalse ⊢
      cases hcr : s.connectRequest with
      | none =>
        rw [hcr] at hfalse
        exact absurd (hrec.symm.trans hfalse) (by simp)
      | some o =>
        refine ⟨(connectResolve cfg c o s).1.client, ?_⟩
        show Action.emitConnect (connectResolve cfg c o s).1.client ∈ (connectResolve cfg c o s).2
        rw [connectResolve_acts]
        simp
    | connectTimedOut =>
      simp only [stepFn] at hfalse ⊢
      cases hcr : s.connectRequest with
      | none =>
        rw [hcr] at hfalse
        exact absurd (hrec.symm.trans hfalse) (by simp)
      | some o =>
        refine ⟨(connectTimeout cfg o s).1.client, ?_⟩
        show Action.emitConnect (connectTimeout cfg o s).1.client ∈ (connectTimeout cfg o s).2
        rw [connectTimeout_acts]
        simp
    | connectRejected ex =>
      simp only [stepFn] at hfalse
      cases hcr : s.connectRequest with
      | none =>
        rw [hcr] at hfalse
        exact absurd (hrec.symm.trans hfalse) (by simp)
      | some o =>
        rw [hcr, (connectReject_mono o ex s hrec).1] at hfalse
        exact absurd hfalse (by simp)
    | backoffFire =>
      simp only [stepFn] at hfalse
      by_cases hb : s.reconnectRequest = true
      · rw [if_pos hb, show (backoffAttempt s).1.reconnecting = true by
          rw [show (backoffAttempt s).1.reconnecting = s.reconnecting from
            doReconnect_reconnecting Origin.fromBackoff s]
          exact hrec] at hfalse
        exact absurd hfalse (by simp)
      · rw [if_neg hb] at hfalse
        exact absurd (hrec.symm.trans hfalse) (by simp)
    | pingFire =>
      simp only [stepFn] at hfalse
      by_cases hb : s.pingTimer = true
      · rw [if_pos hb, (pingTimerFire_mono s hrec).1] at hfalse
        exact absurd hfalse (by simp)
      · rw [if_neg hb] at hfalse
        exact absurd (hrec.symm.trans hfalse) (by simp)

/-- Witness for C4: a single fed close on the fresh state emits exactly one
`offline`. -/
theorem offline_once_witness :
    (feedSeq [Feed.closeSig none] (initState Nat)).2.count
        (Action.emitOffline : Action Nat) = 1 :=
  (offline_once [Feed.closeSig none] (initState Nat)).1 rfl rfl rfl rfl (by simp)

/-- C7: a retry predicate refusing at a failed attempt, or the attempt cap
being reached at a failed attempt, stops the backoff run at exactly that
attempt with a failure — no further automatic connect attempts; in the
controller's wiring the failed attempt's error is surfaced through the error
event (its retry option feeds the error before answering), the exhausted run
clears the outstanding backoff slot, and the instance remains reconnectable:
a subsequent manual `reconnect()` immediately emits `reconnect` and starts a
new connect attempt. -/
theorem backoff_exhaustion (E : Type) (attempt : Nat → Option E) (retry : E → Nat → Bool)
    (maxAttempts n : Nat) (e : E) :
    (attempt n = some e → retry e n = false →
        backoffGo attempt retry maxAttempts n = BackoffResult.failure e n) ∧
      (attempt n = some e → maxAttempts ≤ n →
        backoffGo attempt retry maxAttempts n = BackoffResult.failure e n) ∧
      (∀ s : State T, Action.emitError ∈ (connectReject Origin.fromBackoff true s).2) ∧
      (∀ s : State T, (connectReject Origin.fromBackoff true s).1.reconnectRequest = false) ∧
      (∀ s : State T, s.ending = false → s.connected = false → s.connecting = false →
        Action.emitReconnect ∈ (reconnect s).2 ∧
          Action.connectorConnect ∈ (reconnect s).2) := by
  refine ⟨?_, ?_, ?_, ?_, ?_⟩
  · intro ha hr
    unfold backoffGo
    rw [ha]
    simp [hr]
  · intro ha hm
    unfold backoffGo
    rw [ha]
    have hlt : ¬n < maxAttempts := by omega
    simp [hlt]
  · intro s
    simp [connectReject, feedError, feedClose]
  · intro s
    simp [connectReject]
  · intro s h1 h3 h4
    have hrec : reconnect s = run Origin.manual s := by
      unfold reconnect
      rw [h1]
      simp
    rw [hrec]
    unfold run doReconnect doConnect
    simp [h3, h4]

/-- Witness for C7: a predicate refusing the first failed attempt stops the
run at attempt 1; the exhausted rejection path emits the error event. -/
theorem backoff_exhaustion_witness :
    backoffGo (fun _ => some 0) (fun _ _ => false) 5 1 = BackoffResult.failure 0 1 ∧
      Action.emitError ∈ (connectReject Origin.fromBackoff true (initState Nat)).2 :=
  ⟨(backoff_exhaustion (T := Nat) Nat (fun _ => some 0) (fun _ _ => false) 5 1 0).1 rfl rfl,
    (backoff_exhaustion (T := Nat) Nat (fun _ => some 0) (fun _ _ => false) 5 1 0).2.2.1
      (initState Nat)⟩

/-- C1 (evaluation of the code at the failing input): starting from the
constructor's pending connect attempt, when the connect-timeout timer fires
first the code does not treat the attempt as a failure: the `onTimeout`
callback cancels and clears the request, `doConnect` resumes by awaiting the
now-cleared request slot (`undefined`) and falls through to `onConnected`,
so a `connect` event is emitted with no client, the instance is marked
connected, the keepalive timer is armed, and no backoff run is scheduled —
the attempt is not counted toward the backoff attempt counter. -/
theorem connect_timeout_behavior :
    (connectTimeout ⟨60, 30000⟩ Origin.ctor (doConnect Origin.ctor (initState Nat)).1).2 =
        [Action.cancelConnectReq, Action.emitConnect none] ∧
      (connectTimeout ⟨60, 30000⟩ Origin.ctor
          (doConnect Origin.ctor (initState Nat)).1).1.connected = true ∧
      (connectTimeout ⟨60, 30000⟩ Origin.ctor
          (doConnect Origin.ctor (initState Nat)).1).1.client = none ∧
      (connectTimeout ⟨60, 30000⟩ Origin.ctor
          (doConnect Origin.ctor (initState Nat)).1).1.reconnectRequest = false ∧
      (connectTimeout ⟨60, 30000⟩ Origin.ctor
          (doConnect Origin.ctor (initState Nat)).1).1.pingTimer = true := by
  refine ⟨?_, ?_, ?_, ?_, ?_⟩ <;> decide
